import Mathlib

/-!
Verification of the train reservation service (train_service).

The data model and the operations are a shallow embedding of
`src/train.rs` and `src/booking_reference.rs`:

* `HashMap<SeatId, Seat>` (resp. `HashMap<TrainId, Train>`) is modelled
  as an association list; the Rust map has no duplicate keys, and the
  list operations below coincide with map semantics on such lists.
* `Train::reserve(&mut self, ...) -> Result<(), Error>` is modelled as a
  pure function returning the outcome together with the new train state;
  each `return Err(..)` in the source happens before any mutation, so the
  error outcomes carry the unchanged train.  The two `.unwrap()` calls in
  the source are modelled by the `unwrapFailed` outcome (a `None` from
  `get`/`get_mut` would panic in Rust).
* the `u64` counter of `BookingReferenceService` is a `Nat` reduced
  modulo `2 ^ 64` (release-mode wrapping arithmetic).
-/

/-- `SeatId` from train.rs: a string-wrapped identifier. -/
structure SeatId where
  id : String
deriving DecidableEq, Repr

/-- `TrainId` from train.rs: a string-wrapped identifier. -/
structure TrainId where
  id : String
deriving DecidableEq, Repr

/-- `BookingReference` from booking_reference.rs: a string-wrapped identifier. -/
structure BookingReference where
  id : String
deriving DecidableEq, Repr

/-- `Seat` from train.rs. -/
structure Seat where
  seat_number : String
  coach : String
  booking_reference : Option BookingReference
deriving DecidableEq, Repr

/-- The seat collection of a train: `HashMap<SeatId, Seat>` as an association list. -/
abbrev Seats := List (SeatId × Seat)

/-- `Train` from train.rs. -/
structure Train where
  seats : Seats
deriving DecidableEq, Repr

/-- `Reservation` from train.rs. -/
structure Reservation where
  seats : List SeatId
  booking_reference : BookingReference
deriving DecidableEq, Repr

/-- `Error` from train.rs. -/
inductive Error where
  | TrainDoesNotExist : TrainId → Error
  | SeatsDoNotExist : List SeatId → Error
  | SeatsAlreadyReserved : List SeatId → Error
deriving DecidableEq, Repr

/-- `HashMap::contains_key` on the seat collection. -/
def containsKey (seats : Seats) (seat_id : SeatId) : Bool :=
  seats.any (fun p => p.1 == seat_id)

/-- `HashMap::get` on the seat collection (`Train::get` in train.rs). -/
def getSeat (seats : Seats) (seat_id : SeatId) : Option Seat :=
  (seats.find? (fun p => p.1 == seat_id)).map Prod.snd

/-- The effect of `self.seats.get_mut(seat_id).unwrap().booking_reference = br`
on the seat collection, given that the key is present (the sole mutation of a
seat performed by train.rs). -/
def setBookingReference (seats : Seats) (seat_id : SeatId)
    (br : Option BookingReference) : Seats :=
  seats.map fun p =>
    if p.1 == seat_id then (p.1, { p.2 with booking_reference := br }) else p

/-- First pass of `Train::reserve` (train.rs lines 96-101): collect the seat
ids of the reservation that are not keys of the train's seat collection,
in input order. -/
def findNonExistent (seats : Seats) (ids : List SeatId) : List SeatId :=
  ids.filter (fun seat_id => !containsKey seats seat_id)

/-- Second pass of `Train::reserve` (train.rs lines 107-113): collect the seat
ids whose seat already has a booking reference, in input order.  The source
calls `.unwrap()` on `seats.get(seat_id)`; a missing key would panic, which is
modelled by `none`. -/
def findAlreadyReserved (seats : Seats) : List SeatId → Option (List SeatId)
  | [] => some []
  | seat_id :: rest =>
    match getSeat seats seat_id with
    | none => none
    | some seat =>
      match findAlreadyReserved seats rest with
      | none => none
      | some tail =>
        some (if seat.booking_reference.isSome then seat_id :: tail else tail)

/-- Third pass of `Train::reserve` (train.rs lines 120-123): stamp every named
seat with the reservation's booking reference.  The source calls `.unwrap()`
on `seats.get_mut(seat_id)`; a missing key would panic, modelled by `none`. -/
def commitSeats (br : BookingReference) : Seats → List SeatId → Option Seats
  | seats, [] => some seats
  | seats, seat_id :: rest =>
    if containsKey seats seat_id then
      commitSeats br (setBookingReference seats seat_id (some br)) rest
    else none

/-- Outcome of `Train::reserve`: `Ok(())`, `Err(e)`, or a panic of one of the
two `.unwrap()` calls. -/
inductive ReserveOutcome where
  | ok : ReserveOutcome
  | err : Error → ReserveOutcome
  | unwrapFailed : ReserveOutcome
deriving DecidableEq, Repr

/-- `Train::reserve` from train.rs (lines 94-126), as a pure function from the
train state to the outcome and the new train state. -/
def Train.reserve (t : Train) (r : Reservation) : ReserveOutcome × Train :=
  let non_existent_seat_ids := findNonExistent t.seats r.seats
  if !non_existent_seat_ids.isEmpty then
    (ReserveOutcome.err (Error.SeatsDoNotExist non_existent_seat_ids), t)
  else
    match findAlreadyReserved t.seats r.seats with
    | none => (ReserveOutcome.unwrapFailed, t)
    | some seats_already_reserved =>
      if !seats_already_reserved.isEmpty then
        (ReserveOutcome.err (Error.SeatsAlreadyReserved seats_already_reserved), t)
      else
        match commitSeats r.booking_reference t.seats r.seats with
        | none => (ReserveOutcome.unwrapFailed, t)
        | some seats => (ReserveOutcome.ok, Train.mk seats)

/-- `Train::reset` from train.rs (lines 128-132): clear the booking reference
of every seat. -/
def Train.reset (t : Train) : Train :=
  Train.mk (t.seats.map fun p => (p.1, { p.2 with booking_reference := none }))

/-- The train collection: `HashMap<TrainId, Train>` as an association list. -/
abbrev TrainsData := List (TrainId × Train)

/-- `TrainDataService` from train.rs. -/
structure TrainDataService where
  trains : TrainsData
deriving DecidableEq, Repr

/-- `HashMap::get` on the train collection (`TrainsData::get` in train.rs). -/
def getTrain (trains : TrainsData) (train_id : TrainId) : Option Train :=
  (trains.find? (fun p => p.1 == train_id)).map Prod.snd

/-- `HashMap::contains_key` on the train collection. -/
def containsTrain (trains : TrainsData) (train_id : TrainId) : Bool :=
  trains.any (fun p => p.1 == train_id)

/-- `TrainDataService::train` from train.rs (lines 140-145). -/
def TrainDataService.train (s : TrainDataService) (train_id : TrainId) :
    Except Error Train :=
  match getTrain s.trains train_id with
  | some t => Except.ok t
  | none => Except.error (Error.TrainDoesNotExist train_id)

/-- `TrainDataService::train_mut` from train.rs (lines 147-152): the lookup is
the same as `train`; obtaining the mutable borrow itself leaves the train
collection unchanged, so the function returns the service state unaltered. -/
def TrainDataService.train_mut (s : TrainDataService) (train_id : TrainId) :
    Except Error Train × TrainDataService :=
  (s.train train_id, s)

/-- The `u64` modulus: the counter of `BookingReferenceService` wraps at `2 ^ 64`. -/
def U64LIMIT : Nat := 2 ^ 64

/-- One lowercase hexadecimal digit, as produced by Rust's `{:x}` formatting
(`0`-`9` then `a`-`f`). -/
def hexDigitChar (d : Nat) : Char :=
  if d < 10 then Char.ofNat (48 + d) else Char.ofNat (87 + d)

/-- Digit-accumulation loop of Rust's `{:x}` formatting for unsigned integers:
repeatedly divide by 16, prepending the digit of each remainder; stop when the
quotient is zero.  Structural fuel (`n + 1` suffices) keeps it executable. -/
def hexDigitsAux : Nat → Nat → List Char → List Char
  | 0, _, ds => ds
  | fuel + 1, n, ds =>
    let d := hexDigitChar (n % 16)
    let q := n / 16
    if q = 0 then d :: ds else hexDigitsAux fuel q (d :: ds)

/-- Rust's `format!("{:x}", n)` for an unsigned integer: lowercase hexadecimal,
no leading zeros, no prefix (`"0"` for zero). -/
def toHex (n : Nat) : String :=
  String.mk (hexDigitsAux (n + 1) n [])

/-- Value of one lowercase hexadecimal digit character (decoder used to
reason about `toHex`). -/
def hexCharVal (c : Char) : Nat :=
  if c.toNat ≥ 97 then c.toNat - 87 else c.toNat - 48

/-- Decode a big-endian lowercase hexadecimal digit list. -/
def fromHexDigits (ds : List Char) : Nat :=
  ds.foldl (fun acc c => 16 * acc + hexCharVal c) 0

/-- Decode a lowercase hexadecimal string (left inverse of `toHex`). -/
def fromHex (s : String) : Nat :=
  fromHexDigits s.data

/-- The sixteen characters a lowercase hexadecimal rendering may contain. -/
def hexAlphabet : List Char :=
  "0123456789abcdef".data

/-- `BookingReferenceService` from booking_reference.rs. -/
structure BookingReferenceService where
  counter : Nat
deriving DecidableEq, Repr

/-- `BookingReferenceService::booking_reference` from booking_reference.rs
(lines 19-23): increment the counter (wrapping `u64` arithmetic) and return it
rendered in hexadecimal, together with the new service state. -/
def BookingReferenceService.booking_reference (s : BookingReferenceService) :
    BookingReference × BookingReferenceService :=
  let c := (s.counter + 1) % U64LIMIT
  (BookingReference.mk (toHex c), BookingReferenceService.mk c)

/-- The service state after `n` calls to `booking_reference`. -/
def BookingReferenceService.afterCalls (s : BookingReferenceService) :
    Nat → BookingReferenceService
  | 0 => s
  | n + 1 => (s.booking_reference.2).afterCalls n

/-- The value returned by the `n`-th call (0-indexed) to `booking_reference`
in a sequence of calls on one instance. -/
def BookingReferenceService.nthCall (s : BookingReferenceService) (n : Nat) :
    BookingReference :=
  ((s.afterCalls n).booking_reference).1

/-- The list of keys of a seat collection. -/
def seatKeys (seats : Seats) : List SeatId :=
  seats.map Prod.fst

/-- The display attributes of a seat (never touched by reservation operations). -/
def seatInfo (s : Seat) : String × String :=
  (s.seat_number, s.coach)

/-- Whether the seat under `seat_id` exists in `seats` and already carries a
booking reference (the condition tested by the second pass of `reserve`). -/
def isReserved (seats : Seats) (seat_id : SeatId) : Bool :=
  match getSeat seats seat_id with
  | some seat => seat.booking_reference.isSome
  | none => false

/-- The seat ids of `ids` whose seat in `seats` is already reserved, in input
order (the list built by the second pass of `reserve` when no panic occurs). -/
def reservedSeatIds (seats : Seats) (ids : List SeatId) : List SeatId :=
  ids.filter (fun seat_id => isReserved seats seat_id)

/-- A free seat, as in the fixtures and tests of train.rs. -/
def sampleFreeSeat : Seat :=
  { seat_number := "1", coach := "A", booking_reference := none }

/-- A seat already carrying a booking reference, as in the tests of train.rs. -/
def sampleTakenSeat : Seat :=
  { seat_number := "2", coach := "A", booking_reference := some (BookingReference.mk "existing") }

/-- A two-seat train: seat "1A" free, seat "2A" already reserved. -/
def sampleTrain : Train :=
  Train.mk [(SeatId.mk "1A", sampleFreeSeat), (SeatId.mk "2A", sampleTakenSeat)]

/-- A service holding the single train "local_1000". -/
def sampleService : TrainDataService :=
  TrainDataService.mk [(TrainId.mk "local_1000", sampleTrain)]

/-! ### Basic lemmas about the seat collection -/

lemma containsKey_eq_isSome (seats : Seats) (sid : SeatId) :
    containsKey seats sid = (getSeat seats sid).isSome := by
  induction seats with
  | nil => rfl
  | cons p rest ih =>
    by_cases h : p.1 == sid <;>
      simp [containsKey, getSeat, List.any_cons, List.find?_cons, h] <;>
      simpa [containsKey, getSeat] using ih

lemma containsKey_true_iff (seats : Seats) (sid : SeatId) :
    containsKey seats sid = true ↔ ∃ s, getSeat seats sid = some s := by
  rw [containsKey_eq_isSome]
  exact Option.isSome_iff_exists

lemma containsKey_false_iff (seats : Seats) (sid : SeatId) :
    containsKey seats sid = false ↔ getSeat seats sid = none := by
  rw [containsKey_eq_isSome]
  cases getSeat seats sid <;> simp

lemma getSeat_cons (p : SeatId × Seat) (rest : Seats) (k : SeatId) :
    getSeat (p :: rest) k = if p.1 == k then some p.2 else getSeat rest k := by
  by_cases h : p.1 == k <;> simp [getSeat, List.find?_cons, h]

lemma setBookingReference_cons (p : SeatId × Seat) (rest : Seats) (sid : SeatId)
    (br : Option BookingReference) :
    setBookingReference (p :: rest) sid br =
      (if p.1 == sid then (p.1, { p.2 with booking_reference := br }) else p) ::
        setBookingReference rest sid br := rfl

lemma getSeat_setBookingReference (seats : Seats) (sid k : SeatId)
    (br : Option BookingReference) :
    getSeat (setBookingReference seats sid br) k =
      (getSeat seats k).map
        (fun s => if k = sid then { s with booking_reference := br } else s) := by
  induction seats with
  | nil => rfl
  | cons p rest ih =>
    rw [setBookingReference_cons]
    by_cases h : p.1 == sid
    · rw [if_pos h, getSeat_cons, getSeat_cons]
      by_cases hk : p.1 == k
      · have h1 : p.1 = sid := by simpa using h
        have h2 : p.1 = k := by simpa using hk
        have hks : k = sid := by rw [← h2, ← h1]
        simp [hk, hks, h1]
      · simp [hk, ih]
    · rw [if_neg h, getSeat_cons, getSeat_cons]
      by_cases hk : p.1 == k
      · have h1 : ¬p.1 = sid := by simpa using h
        have h2 : p.1 = k := by simpa using hk
        have hks : ¬k = sid := by rw [← h2]; exact h1
        simp [hk, hks]
      · simp [hk, ih]

lemma seatKeys_setBookingReference (seats : Seats) (sid : SeatId)
    (br : Option BookingReference) :
    seatKeys (setBookingReference seats sid br) = seatKeys seats := by
  unfold seatKeys setBookingReference
  rw [List.map_map]
  congr 1
  funext p
  simp only [Function.comp_apply]
  split <;> rfl

lemma containsKey_setBookingReference (seats : Seats) (sid k : SeatId)
    (br : Option BookingReference) :
    containsKey (setBookingReference seats sid br) k = containsKey seats k := by
  rw [containsKey_eq_isSome, containsKey_eq_isSome, getSeat_setBookingReference]
  cases getSeat seats k <;> simp

/-! ### The three passes of `reserve` -/

lemma mem_findNonExistent (seats : Seats) (ids : List SeatId) (sid : SeatId) :
    sid ∈ findNonExistent seats ids ↔
      sid ∈ ids ∧ containsKey seats sid = false := by
  simp [findNonExistent, List.mem_filter]

lemma findNonExistent_eq_nil_iff (seats : Seats) (ids : List SeatId) :
    findNonExistent seats ids = [] ↔
      ∀ sid ∈ ids, containsKey seats sid = true := by
  constructor
  · intro h sid hmem
    by_contra hc
    have hf : containsKey seats sid = false := by
      cases hck : containsKey seats sid with
      | false => rfl
      | true => exact absurd hck hc
    have : sid ∈ findNonExistent seats ids :=
      (mem_findNonExistent seats ids sid).mpr ⟨hmem, hf⟩
    rw [h] at this
    exact absurd this (List.not_mem_nil sid)
  · intro h
    cases hc : findNonExistent seats ids with
    | nil => rfl
    | cons a l =>
      have ha : a ∈ findNonExistent seats ids := by rw [hc]; simp
      obtain ⟨hmem, hf⟩ := (mem_findNonExistent seats ids a).mp ha
      rw [h a hmem] at hf
      cases hf

lemma findAlreadyReserved_eq (seats : Seats) (ids : List SeatId)
    (h : ∀ sid ∈ ids, containsKey seats sid = true) :
    findAlreadyReserved seats ids = some (reservedSeatIds seats ids) := by
  induction ids with
  | nil => rfl
  | cons sid rest ih =>
    obtain ⟨s, hs⟩ := (containsKey_true_iff seats sid).mp (h sid (by simp))
    have hrest : ∀ x ∈ rest, containsKey seats x = true :=
      fun x hx => h x (by simp [hx])
    simp only [findAlreadyReserved, hs, ih hrest]
    by_cases hb : s.booking_reference.isSome <;>
      simp [reservedSeatIds, isReserved, List.filter_cons, hs, hb]

lemma reservedSeatIds_eq_nil_iff (seats : Seats) (ids : List SeatId) :
    reservedSeatIds seats ids = [] ↔
      ∀ sid ∈ ids, isReserved seats sid = false := by
  simp only [reservedSeatIds, List.filter_eq_nil_iff]
  constructor
  · intro h sid hmem
    cases hck : isReserved seats sid with
    | false => rfl
    | true => exact absurd hck (h sid hmem)
  · intro h sid hmem
    rw [h sid hmem]
    simp

lemma mem_reservedSeatIds (seats : Seats) (ids : List SeatId) (sid : SeatId) :
    sid ∈ reservedSeatIds seats ids ↔
      sid ∈ ids ∧ isReserved seats sid = true := by
  simp [reservedSeatIds, List.mem_filter]

lemma commitSeats_eq (br : BookingReference) (seats : Seats) (ids : List SeatId)
    (h : ∀ sid ∈ ids, containsKey seats sid = true) :
    ∃ out, commitSeats br seats ids = some out ∧
      seatKeys out = seatKeys seats ∧
      ∀ k, getSeat out k =
        (getSeat seats k).map
          (fun s => if k ∈ ids then { s with booking_reference := some br } else s) := by
  induction ids generalizing seats with
  | nil =>
    refine ⟨seats, rfl, rfl, fun k => ?_⟩
    cases getSeat seats k <;> simp
  | cons sid rest ih =>
    have hsid := h sid (by simp)
    have hrest : ∀ x ∈ rest,
        containsKey (setBookingReference seats sid (some br)) x = true := by
      intro x hx
      rw [containsKey_setBookingReference]
      exact h x (by simp [hx])
    obtain ⟨out, hout, hkeys, hchar⟩ := ih (setBookingReference seats sid (some br)) hrest
    refine ⟨out, ?_, ?_, fun k => ?_⟩
    · simp only [commitSeats, hsid, if_true]
      exact hout
    · rw [hkeys, seatKeys_setBookingReference]
    · rw [hchar k, getSeat_setBookingReference]
      cases hg : getSeat seats k with
      | none => simp
      | some s =>
        by_cases h1 : k = sid
        · by_cases h2 : k ∈ rest <;> simp [h1, h2]
        · by_cases h2 : k ∈ rest <;> simp [h1, h2]

lemma commitSeats_preserves (br : BookingReference) (seats : Seats)
    (ids : List SeatId) (out : Seats) (h : commitSeats br seats ids = some out) :
    seatKeys out = seatKeys seats ∧
      ∀ k, (getSeat out k).map seatInfo = (getSeat seats k).map seatInfo := by
  induction ids generalizing seats with
  | nil =>
    cases h
    exact ⟨rfl, fun k => rfl⟩
  | cons sid rest ih =>
    by_cases hc : containsKey seats sid = true
    · simp only [commitSeats, hc, if_true] at h
      obtain ⟨hkeys, hchar⟩ := ih (setBookingReference seats sid (some br)) h
      refine ⟨by rw [hkeys, seatKeys_setBookingReference], fun k => ?_⟩
      rw [hchar k, getSeat_setBookingReference]
      cases getSeat seats k with
      | none => rfl
      | some s => by_cases h1 : k = sid <;> simp [h1, seatInfo]
    · simp only [commitSeats, hc, if_false] at h
      cases h

/-! ### Branch lemmas for `reserve`, and helpers for `reset` -/

lemma isEmpty_false_of_ne_nil {α : Type} {l : List α} (h : l ≠ []) :
    l.isEmpty = false := by
  cases l with
  | nil => exact absurd rfl h
  | cons a t => rfl

lemma reserve_missing_case (t : Train) (r : Reservation)
    (h : findNonExistent t.seats r.seats ≠ []) :
    t.reserve r =
      (ReserveOutcome.err
        (Error.SeatsDoNotExist (findNonExistent t.seats r.seats)), t) := by
  simp [Train.reserve, isEmpty_false_of_ne_nil h]

lemma reserve_conflict_case (t : Train) (r : Reservation)
    (hex : ∀ sid ∈ r.seats, containsKey t.seats sid = true)
    (h : reservedSeatIds t.seats r.seats ≠ []) :
    t.reserve r =
      (ReserveOutcome.err
        (Error.SeatsAlreadyReserved (reservedSeatIds t.seats r.seats)), t) := by
  have hm : findNonExistent t.seats r.seats = [] :=
    (findNonExistent_eq_nil_iff _ _).mpr hex
  have hf := findAlreadyReserved_eq t.seats r.seats hex
  simp [Train.reserve, hm, hf, isEmpty_false_of_ne_nil h]

lemma reserve_success_core (t : Train) (r : Reservation)
    (hex : ∀ sid ∈ r.seats, containsKey t.seats sid = true)
    (hfree : ∀ sid ∈ r.seats, isReserved t.seats sid = false) :
    ∃ out, commitSeats r.booking_reference t.seats r.seats = some out ∧
      t.reserve r = (ReserveOutcome.ok, Train.mk out) ∧
      seatKeys out = seatKeys t.seats ∧
      ∀ k, getSeat out k =
        (getSeat t.seats k).map
          (fun s =>
            if k ∈ r.seats
            then { s with booking_reference := some r.booking_reference }
            else s) := by
  have hm : findNonExistent t.seats r.seats = [] :=
    (findNonExistent_eq_nil_iff _ _).mpr hex
  have hf := findAlreadyReserved_eq t.seats r.seats hex
  have hres : reservedSeatIds t.seats r.seats = [] :=
    (reservedSeatIds_eq_nil_iff _ _).mpr hfree
  obtain ⟨out, hout, hkeys, hchar⟩ :=
    commitSeats_eq r.booking_reference t.seats r.seats hex
  exact ⟨out, hout, by simp [Train.reserve, hm, hf, hres, hout], hkeys, hchar⟩

lemma reserve_snd_cases (t : Train) (r : Reservation) :
    (t.reserve r).2 = t ∨
      ∃ out, commitSeats r.booking_reference t.seats r.seats = some out ∧
        (t.reserve r).2 = Train.mk out := by
  by_cases h1 : findNonExistent t.seats r.seats = []
  · cases hf : findAlreadyReserved t.seats r.seats with
    | none => left; simp [Train.reserve, h1, hf]
    | some l =>
      by_cases h2 : l = []
      · cases hc : commitSeats r.booking_reference t.seats r.seats with
        | none => left; simp [Train.reserve, h1, hf, h2, hc]
        | some out =>
          right
          refine ⟨out, ?_, ?_⟩
          · rfl
          · simp [Train.reserve, h1, hf, h2, hc]
      · left; simp [Train.reserve, h1, hf, isEmpty_false_of_ne_nil h2]
  · left; simp [Train.reserve, isEmpty_false_of_ne_nil h1]

lemma getSeat_map_clear (seats : Seats) (k : SeatId) :
    getSeat (seats.map fun p => (p.1, { p.2 with booking_reference := none })) k =
      (getSeat seats k).map fun s => { s with booking_reference := none } := by
  induction seats with
  | nil => rfl
  | cons p rest ih =>
    rw [List.map_cons, getSeat_cons, getSeat_cons]
    by_cases h : p.1 == k <;> simp [h, ih]

lemma seatKeys_map_clear (seats : Seats) :
    seatKeys (seats.map fun p => (p.1, { p.2 with booking_reference := none })) =
      seatKeys seats := by
  unfold seatKeys
  rw [List.map_map]
  congr 1

lemma count_filter_eq {α : Type} [DecidableEq α] (p : α → Bool) (l : List α)
    (a : α) :
    (l.filter p).count a = if p a then l.count a else 0 := by
  induction l with
  | nil => simp
  | cons b rest ih =>
    by_cases hab : b = a
    · subst hab
      by_cases hb : p b <;>
        simp [List.filter_cons, List.count_cons, hb, ih]
    · by_cases hb : p b <;>
        simp [List.filter_cons, List.count_cons, hb, hab, ih]

/-! ### Claims about `Train::reserve` and `Train::reset` -/

/-- Claim C1: for every train and every reservation in which every named seat
id exists in the train's seat collection and none of the named seats has a
booking reference set, `Train::reserve` returns success, and afterwards every
named seat's booking reference equals the reservation's booking reference
(its other attributes unchanged) while every seat not named in the
reservation is unchanged. -/
theorem reserve_success_stamps_named_seats (t : Train) (r : Reservation)
    (hex : ∀ sid ∈ r.seats, containsKey t.seats sid = true)
    (hfree : ∀ sid ∈ r.seats, isReserved t.seats sid = false) :
    (t.reserve r).1 = ReserveOutcome.ok ∧
      (∀ sid ∈ r.seats,
        getSeat (t.reserve r).2.seats sid =
          (getSeat t.seats sid).map
            (fun s => { s with booking_reference := some r.booking_reference })) ∧
      ∀ sid, sid ∉ r.seats →
        getSeat (t.reserve r).2.seats sid = getSeat t.seats sid := by
  obtain ⟨out, hout, hrw, hkeys, hchar⟩ := reserve_success_core t r hex hfree
  have e1 : (t.reserve r).1 = ReserveOutcome.ok := by rw [hrw]
  have e2 : (t.reserve r).2.seats = out := by rw [hrw]
  refine ⟨e1, fun sid hmem => ?_, fun sid hmem => ?_⟩
  · rw [e2, hchar sid]
    cases getSeat t.seats sid <;> simp [hmem]
  · rw [e2, hchar sid]
    cases getSeat t.seats sid <;> simp [hmem]

/-- Claim C1 witness: reserving the free seat "1A" of the sample train
succeeds and stamps it with booking reference "123456". -/
theorem reserve_success_stamps_named_seats_witness :
    (sampleTrain.reserve
        (Reservation.mk [SeatId.mk "1A"] (BookingReference.mk "123456"))).1 =
      ReserveOutcome.ok ∧
    getSeat (sampleTrain.reserve
        (Reservation.mk [SeatId.mk "1A"] (BookingReference.mk "123456"))).2.seats
        (SeatId.mk "1A") =
      some (Seat.mk "1" "A" (some (BookingReference.mk "123456"))) := by
  have h := reserve_success_stamps_named_seats sampleTrain
    (Reservation.mk [SeatId.mk "1A"] (BookingReference.mk "123456"))
    (by decide) (by decide)
  refine ⟨h.1, ?_⟩
  rw [h.2.1 (SeatId.mk "1A") (by decide)]
  decide

/-- Claim C2: for every train and every reservation naming at least one seat
id absent from the train's seat collection, `Train::reserve` fails with
`SeatsDoNotExist` whose list holds exactly the nonexistent seat ids, in the
order they appear in the reservation's seat list (it is a sublist of it), and
the train is left unchanged. -/
theorem reserve_fails_on_missing_seats (t : Train) (r : Reservation)
    (h : ∃ sid ∈ r.seats, containsKey t.seats sid = false) :
    t.reserve r =
      (ReserveOutcome.err
        (Error.SeatsDoNotExist (findNonExistent t.seats r.seats)), t) ∧
      (∀ sid, sid ∈ findNonExistent t.seats r.seats ↔
        sid ∈ r.seats ∧ containsKey t.seats sid = false) ∧
      List.Sublist (findNonExistent t.seats r.seats) r.seats := by
  obtain ⟨sid, hmem, hf⟩ := h
  have hne : findNonExistent t.seats r.seats ≠ [] := by
    intro hnil
    have hin := (mem_findNonExistent t.seats r.seats sid).mpr ⟨hmem, hf⟩
    rw [hnil] at hin
    exact absurd hin (List.not_mem_nil sid)
  exact ⟨reserve_missing_case t r hne,
    fun s => mem_findNonExistent t.seats r.seats s,
    List.filter_sublist r.seats⟩

/-- Claim C2 witness: reserving existing free seat "1A" together with the
nonexistent seat "zz" fails with `SeatsDoNotExist(["zz"])`, leaving the train
unchanged. -/
theorem reserve_fails_on_missing_seats_witness :
    sampleTrain.reserve
        (Reservation.mk [SeatId.mk "1A", SeatId.mk "zz"] (BookingReference.mk "b")) =
      (ReserveOutcome.err (Error.SeatsDoNotExist [SeatId.mk "zz"]), sampleTrain) := by
  have h := reserve_fails_on_missing_seats sampleTrain
    (Reservation.mk [SeatId.mk "1A", SeatId.mk "zz"] (BookingReference.mk "b"))
    ⟨SeatId.mk "zz", by decide, by decide⟩
  rw [h.1]
  decide

/-- Claim C3: for every train and every reservation in which every named seat
id exists but at least one named seat already carries a booking reference,
`Train::reserve` fails with `SeatsAlreadyReserved` whose list holds exactly
the already-reserved seat ids, in the order they appear in the reservation's
seat list (it is a sublist of it), and the train is left unchanged. -/
theorem reserve_fails_on_reserved_seats (t : Train) (r : Reservation)
    (hex : ∀ sid ∈ r.seats, containsKey t.seats sid = true)
    (h : ∃ sid ∈ r.seats, isReserved t.seats sid = true) :
    t.reserve r =
      (ReserveOutcome.err
        (Error.SeatsAlreadyReserved (reservedSeatIds t.seats r.seats)), t) ∧
      (∀ sid, sid ∈ reservedSeatIds t.seats r.seats ↔
        sid ∈ r.seats ∧ isReserved t.seats sid = true) ∧
      List.Sublist (reservedSeatIds t.seats r.seats) r.seats := by
  obtain ⟨sid, hmem, hf⟩ := h
  have hne : reservedSeatIds t.seats r.seats ≠ [] := by
    intro hnil
    have hin := (mem_reservedSeatIds t.seats r.seats sid).mpr ⟨hmem, hf⟩
    rw [hnil] at hin
    exact absurd hin (List.not_mem_nil sid)
  exact ⟨reserve_conflict_case t r hex hne,
    fun s => mem_reservedSeatIds t.seats r.seats s,
    List.filter_sublist r.seats⟩

/-- Claim C3 witness: reserving the already-reserved seat "2A" (which exists)
fails with `SeatsAlreadyReserved(["2A"])`, leaving the train unchanged. -/
theorem reserve_fails_on_reserved_seats_witness :
    sampleTrain.reserve
        (Reservation.mk [SeatId.mk "2A"] (BookingReference.mk "new")) =
      (ReserveOutcome.err (Error.SeatsAlreadyReserved [SeatId.mk "2A"]), sampleTrain) := by
  have h := reserve_fails_on_reserved_seats sampleTrain
    (Reservation.mk [SeatId.mk "2A"] (BookingReference.mk "new"))
    (by decide) ⟨SeatId.mk "2A", by decide, by decide⟩
  rw [h.1]
  decide

/-- Claim C4: once the existence pass of `Train::reserve` has found zero
missing seat ids, the `unwrap` in the conflict pass succeeds (the pass
returns a value instead of panicking), the `unwrap` in the commit pass
succeeds (the commit pass returns a value), and `reserve` cannot end in the
panic outcome. -/
theorem reserve_passes_cannot_panic (t : Train) (r : Reservation)
    (h : findNonExistent t.seats r.seats = []) :
    findAlreadyReserved t.seats r.seats =
        some (reservedSeatIds t.seats r.seats) ∧
      (∃ out, commitSeats r.booking_reference t.seats r.seats = some out) ∧
      (t.reserve r).1 ≠ ReserveOutcome.unwrapFailed := by
  have hex := (findNonExistent_eq_nil_iff t.seats r.seats).mp h
  have hf := findAlreadyReserved_eq t.seats r.seats hex
  obtain ⟨out, hout, -, -⟩ := commitSeats_eq r.booking_reference t.seats r.seats hex
  refine ⟨hf, ⟨out, hout⟩, ?_⟩
  by_cases hres : reservedSeatIds t.seats r.seats = []
  · simp [Train.reserve, h, hf, hres, hout]
  · simp [Train.reserve, h, hf, isEmpty_false_of_ne_nil hres]

/-- Claim C4 witness: for the reservation of the existing seats "1A" and "2A"
on the sample train the existence pass finds nothing missing and `reserve`
does not panic (here it reports "2A" as already reserved). -/
theorem reserve_passes_cannot_panic_witness :
    findNonExistent sampleTrain.seats [SeatId.mk "1A", SeatId.mk "2A"] = [] ∧
      (sampleTrain.reserve
          (Reservation.mk [SeatId.mk "1A", SeatId.mk "2A"] (BookingReference.mk "b"))).1 ≠
        ReserveOutcome.unwrapFailed := by
  refine ⟨by decide, ?_⟩
  exact (reserve_passes_cannot_panic sampleTrain
    (Reservation.mk [SeatId.mk "1A", SeatId.mk "2A"] (BookingReference.mk "b"))
    (by decide)).2.2

/-- Claim C7: for every train in any state, `Train::reset` (which never
fails) leaves every seat present with its booking reference cleared and its
seat_number and coach unchanged: the lookup of any seat id yields the old
seat with `booking_reference := none`, every stored seat is free afterwards,
and the key list is untouched. -/
theorem reset_clears_every_seat (t : Train) :
    (∀ sid, getSeat t.reset.seats sid =
        (getSeat t.seats sid).map
          (fun s => { s with booking_reference := none })) ∧
      (∀ p ∈ t.reset.seats, p.2.booking_reference = none) ∧
      seatKeys t.reset.seats = seatKeys t.seats := by
  refine ⟨fun sid => getSeat_map_clear t.seats sid, ?_, seatKeys_map_clear t.seats⟩
  intro p hp
  simp only [Train.reset, List.mem_map] at hp
  obtain ⟨q, hq, rfl⟩ := hp
  rfl

/-- Claim C8: the key list of the train's seat collection is identical before
and after `Train::reserve` (whatever the outcome) and before and after
`Train::reset`, and each seat keeps its seat_number and coach. -/
theorem reservation_ops_fix_seat_composition (t : Train) (r : Reservation) :
    seatKeys (t.reserve r).2.seats = seatKeys t.seats ∧
      (∀ sid, (getSeat (t.reserve r).2.seats sid).map seatInfo =
        (getSeat t.seats sid).map seatInfo) ∧
      seatKeys t.reset.seats = seatKeys t.seats ∧
      ∀ sid, (getSeat t.reset.seats sid).map seatInfo =
        (getSeat t.seats sid).map seatInfo := by
  have hreset2 : ∀ sid, (getSeat t.reset.seats sid).map seatInfo =
      (getSeat t.seats sid).map seatInfo := by
    intro sid
    have e : getSeat t.reset.seats sid =
        (getSeat t.seats sid).map (fun s => { s with booking_reference := none }) :=
      getSeat_map_clear t.seats sid
    rw [e]
    cases getSeat t.seats sid <;> rfl
  rcases reserve_snd_cases t r with hcase | ⟨out, hout, hcase⟩
  · rw [hcase]
    exact ⟨rfl, fun sid => rfl, seatKeys_map_clear t.seats, hreset2⟩
  · obtain ⟨hkeys, hchar⟩ :=
      commitSeats_preserves r.booking_reference t.seats r.seats out hout
    rw [hcase]
    exact ⟨hkeys, hchar, seatKeys_map_clear t.seats, hreset2⟩

/-- Claim C9: reserving with an empty seat list succeeds and leaves the train
completely unchanged (the code accepts the empty reservation as a vacuous
success). -/
theorem reserve_empty_reservation (t : Train) (br : BookingReference) :
    t.reserve (Reservation.mk [] br) = (ReserveOutcome.ok, t) := rfl

/-- Claim C10: a reservation whose seat list contains duplicates behaves like
any other: if every (not necessarily distinct) named seat exists and is free,
`reserve` succeeds and each named seat ends up stamped with the reservation's
booking reference; in the failure cases the error lists are exactly the
filtered input list, so a problematic seat id occurring k times in the input
occurs k times in the error list. -/
theorem reserve_duplicate_seat_ids (t : Train) (r : Reservation) :
    ((∀ sid ∈ r.seats,
        containsKey t.seats sid = true ∧ isReserved t.seats sid = false) →
      (t.reserve r).1 = ReserveOutcome.ok ∧
        ∀ sid ∈ r.seats,
          (getSeat (t.reserve r).2.seats sid).map Seat.booking_reference =
            some (some r.booking_reference)) ∧
    ((∃ sid ∈ r.seats, containsKey t.seats sid = false) →
      t.reserve r =
        (ReserveOutcome.err
          (Error.SeatsDoNotExist (findNonExistent t.seats r.seats)), t)) ∧
    ((∀ sid ∈ r.seats, containsKey t.seats sid = true) →
      (∃ sid ∈ r.seats, isReserved t.seats sid = true) →
      t.reserve r =
        (ReserveOutcome.err
          (Error.SeatsAlreadyReserved (reservedSeatIds t.seats r.seats)), t)) ∧
    (∀ sid, (findNonExistent t.seats r.seats).count sid =
      if containsKey t.seats sid = true then 0 else r.seats.count sid) ∧
    (∀ sid, (reservedSeatIds t.seats r.seats).count sid =
      if isReserved t.seats sid = true then r.seats.count sid else 0) := by
  refine ⟨?_, ?_, ?_, ?_, ?_⟩
  · intro h
    obtain ⟨out, hout, hrw, hkeys, hchar⟩ :=
      reserve_success_core t r (fun sid hm => (h sid hm).1) (fun sid hm => (h sid hm).2)
    have e1 : (t.reserve r).1 = ReserveOutcome.ok := by rw [hrw]
    have e2 : (t.reserve r).2.seats = out := by rw [hrw]
    refine ⟨e1, fun sid hmem => ?_⟩
    rw [e2, hchar sid]
    obtain ⟨s, hs⟩ := (containsKey_true_iff t.seats sid).mp (h sid hmem).1
    rw [hs]
    simp [hmem]
  · intro h
    obtain ⟨sid, hmem, hf⟩ := h
    have hne : findNonExistent t.seats r.seats ≠ [] := by
      intro hnil
      have hin := (mem_findNonExistent t.seats r.seats sid).mpr ⟨hmem, hf⟩
      rw [hnil] at hin
      exact absurd hin (List.not_mem_nil sid)
    exact reserve_missing_case t r hne
  · intro hex h
    obtain ⟨sid, hmem, hf⟩ := h
    have hne : reservedSeatIds t.seats r.seats ≠ [] := by
      intro hnil
      have hin := (mem_reservedSeatIds t.seats r.seats sid).mpr ⟨hmem, hf⟩
      rw [hnil] at hin
      exact absurd hin (List.not_mem_nil sid)
    exact reserve_conflict_case t r hex hne
  · intro sid
    have hcf := count_filter_eq (fun s => !containsKey t.seats s) r.seats sid
    have e : findNonExistent t.seats r.seats =
        r.seats.filter (fun s => !containsKey t.seats s) := rfl
    rw [e, hcf]
    by_cases hc : containsKey t.seats sid = true <;> simp [hc]
  · intro sid
    have hcf := count_filter_eq (fun s => isReserved t.seats s) r.seats sid
    have e : reservedSeatIds t.seats r.seats =
        r.seats.filter (fun s => isReserved t.seats s) := rfl
    rw [e, hcf]

/-- Claim C10 witness: reserving seat "1A" listed twice succeeds, and the
nonexistent seat "zz" listed twice occurs twice in the missing-seat list. -/
theorem reserve_duplicate_seat_ids_witness :
    (sampleTrain.reserve
        (Reservation.mk [SeatId.mk "1A", SeatId.mk "1A"] (BookingReference.mk "b"))).1 =
      ReserveOutcome.ok ∧
    (findNonExistent sampleTrain.seats
        (Reservation.mk [SeatId.mk "zz", SeatId.mk "zz"] (BookingReference.mk "b")).seats).count
        (SeatId.mk "zz") = 2 := by
  constructor
  · exact ((reserve_duplicate_seat_ids sampleTrain
      (Reservation.mk [SeatId.mk "1A", SeatId.mk "1A"] (BookingReference.mk "b"))).1
      (by decide)).1
  · have h := (reserve_duplicate_seat_ids sampleTrain
      (Reservation.mk [SeatId.mk "zz", SeatId.mk "zz"] (BookingReference.mk "b"))).2.2.2.1
      (SeatId.mk "zz")
    rw [h]
    decide

/-! ### Hexadecimal rendering: properties of `toHex` -/

lemma hexDigitsAux_append (fuel : Nat) : ∀ (n : Nat) (ds : List Char),
    hexDigitsAux fuel n ds = hexDigitsAux fuel n [] ++ ds := by
  induction fuel with
  | zero => intro n ds; rfl
  | succ fuel ih =>
    intro n ds
    simp only [hexDigitsAux]
    by_cases hq : n / 16 = 0
    · simp [hq]
    · rw [if_neg hq, if_neg hq, ih (n / 16) (hexDigitChar (n % 16) :: ds),
        ih (n / 16) [hexDigitChar (n % 16)]]
      simp

lemma lt_sixteen_pow (n : Nat) : n < 16 ^ (n + 1) :=
  calc n < 2 ^ n := Nat.lt_two_pow n
    _ ≤ 16 ^ n := Nat.pow_le_pow_left (by norm_num) n
    _ ≤ 16 ^ (n + 1) := Nat.pow_le_pow_right (by norm_num) (Nat.le_succ n)

lemma hexCharVal_hexDigitChar (d : Nat) (h : d < 16) :
    hexCharVal (hexDigitChar d) = d := by
  interval_cases d <;> decide

lemma fromHexDigits_append (ds : List Char) (c : Char) :
    fromHexDigits (ds ++ [c]) = 16 * fromHexDigits ds + hexCharVal c := by
  simp [fromHexDigits, List.foldl_append]

lemma fromHexDigits_hexDigitsAux (fuel : Nat) : ∀ n, n < 16 ^ fuel →
    fromHexDigits (hexDigitsAux fuel n []) = n := by
  induction fuel with
  | zero =>
    intro n h
    interval_cases n
    rfl
  | succ fuel ih =>
    intro n h
    simp only [hexDigitsAux]
    by_cases hq : n / 16 = 0
    · rw [if_pos hq]
      have hn16 : n < 16 := by
        by_contra hc
        push_neg at hc
        have := Nat.div_pos hc (by norm_num)
        omega
      show 16 * 0 + hexCharVal (hexDigitChar (n % 16)) = n
      rw [Nat.mod_eq_of_lt hn16, hexCharVal_hexDigitChar n hn16]
      omega
    · rw [if_neg hq, hexDigitsAux_append, fromHexDigits_append,
        ih (n / 16)
          ((Nat.div_lt_iff_lt_mul (by norm_num)).mpr (by rw [← pow_succ]; exact h)),
        hexCharVal_hexDigitChar (n % 16) (Nat.mod_lt n (by norm_num))]
      omega

lemma fromHex_toHex (n : Nat) : fromHex (toHex n) = n :=
  fromHexDigits_hexDigitsAux (n + 1) n (lt_sixteen_pow n)

lemma toHex_injective {m n : Nat} (h : toHex m = toHex n) : m = n := by
  have h2 := congrArg fromHex h
  rwa [fromHex_toHex, fromHex_toHex] at h2

lemma hexDigitsAux_eq_digits (fuel : Nat) : ∀ n, n ≠ 0 → n < 16 ^ fuel →
    hexDigitsAux fuel n [] = (Nat.digits 16 n).reverse.map hexDigitChar := by
  induction fuel with
  | zero =>
    intro n hn h
    interval_cases n
    exact absurd rfl hn
  | succ fuel ih =>
    intro n hn h
    rw [Nat.digits_def' (by norm_num : 1 < 16) (Nat.pos_of_ne_zero hn)]
    simp only [hexDigitsAux]
    by_cases hq : n / 16 = 0
    · rw [if_pos hq, hq]
      simp
    · rw [if_neg hq, hexDigitsAux_append,
        ih (n / 16) hq
          ((Nat.div_lt_iff_lt_mul (by norm_num)).mpr (by rw [← pow_succ]; exact h))]
      simp

lemma toHex_head_ne_zero (n : Nat) (hn : n ≠ 0) (c : Char)
    (hc : (toHex n).data.head? = some c) : c ≠ '0' := by
  have e : (toHex n).data = (Nat.digits 16 n).reverse.map hexDigitChar :=
    hexDigitsAux_eq_digits (n + 1) n hn (lt_sixteen_pow n)
  rw [e, List.head?_map, List.head?_reverse] at hc
  obtain ⟨d, hd, rfl⟩ := Option.map_eq_some'.mp hc
  have hne : Nat.digits 16 n ≠ [] := Nat.digits_ne_nil_iff_ne_zero.mpr hn
  have hlast : (Nat.digits 16 n).getLast hne = d := by
    rw [List.getLast?_eq_getLast _ hne] at hd
    injection hd
  have hdz : d ≠ 0 := by
    rw [← hlast]
    exact Nat.getLast_digit_ne_zero 16 hn
  have hdmem : d ∈ Nat.digits 16 n := hlast ▸ List.getLast_mem hne
  have hdlt : d < 16 := Nat.digits_lt_base (by norm_num) hdmem
  have hdpos : 1 ≤ d := Nat.pos_of_ne_zero hdz
  interval_cases d <;> decide

lemma toHex_chars_in_alphabet (n : Nat) :
    ∀ c ∈ (toHex n).data, c ∈ hexAlphabet := by
  by_cases hn : n = 0
  · subst hn
    decide
  · have e : (toHex n).data = (Nat.digits 16 n).reverse.map hexDigitChar :=
      hexDigitsAux_eq_digits (n + 1) n hn (lt_sixteen_pow n)
    rw [e]
    intro c hc
    rw [List.mem_map] at hc
    obtain ⟨d, hd, rfl⟩ := hc
    rw [List.mem_reverse] at hd
    have hdlt : d < 16 := Nat.digits_lt_base (by norm_num) hd
    interval_cases d <;> decide

/-! ### The booking-reference counter -/

lemma afterCalls_counter (n : Nat) : ∀ s : BookingReferenceService,
    (s.afterCalls (n + 1)).counter = (s.counter + n + 1) % U64LIMIT := by
  induction n with
  | zero => intro s; rfl
  | succ n ih =>
    intro s
    rw [show s.afterCalls (n + 1 + 1) =
        (s.booking_reference.2).afterCalls (n + 1) from rfl,
      ih s.booking_reference.2]
    show ((s.counter + 1) % U64LIMIT + n + 1) % U64LIMIT =
      (s.counter + (n + 1) + 1) % U64LIMIT
    rw [Nat.add_assoc, Nat.mod_add_mod]
    congr 1
    omega

lemma nthCall_eq (s : BookingReferenceService) (n : Nat) :
    s.nthCall n = BookingReference.mk (toHex ((s.counter + n + 1) % U64LIMIT)) := by
  cases n with
  | zero => rfl
  | succ n =>
    show ((s.afterCalls (n + 1)).booking_reference).1 = _
    simp only [BookingReferenceService.booking_reference]
    rw [afterCalls_counter n s]
    congr 2
    rw [Nat.mod_add_mod]
    congr 1

/-! ### Claims about `BookingReferenceService` and `TrainDataService` -/

/-- Claim C5 counterexample: on one instance started at counter value
123456789 the call at index 0 and the call at index 2 ^ 64 are two distinct
calls of one sequence yet return equal booking references: the u64 counter
wraps, so the claim that no two calls ever return equal values is false. -/
theorem booking_reference_repeats_after_wrap :
    (BookingReferenceService.mk 123456789).nthCall 0 =
        (BookingReferenceService.mk 123456789).nthCall (2 ^ 64) ∧
      (0 : Nat) ≠ 2 ^ 64 := by
  constructor
  · rw [nthCall_eq, nthCall_eq]
    congr 2
  · decide

/-- Claim C5 (amended): every call to `booking_reference` advances the
counter by one modulo 2 ^ 64 and returns the new counter value rendered as a
lowercase hexadecimal string with no leading zero and no prefix; on an
instance started at 123456789 the first call returns "75bcd16"; and two
calls of one sequence whose indices are fewer than 2 ^ 64 apart always
return distinct values. -/
theorem booking_reference_contract :
    (∀ s : BookingReferenceService,
      (s.booking_reference.2).counter = (s.counter + 1) % U64LIMIT ∧
        s.booking_reference.1 =
          BookingReference.mk (toHex ((s.counter + 1) % U64LIMIT))) ∧
    (∀ n : Nat, n ≠ 0 → ∀ c, (toHex n).data.head? = some c → c ≠ '0') ∧
    (∀ n : Nat, ∀ c ∈ (toHex n).data, c ∈ hexAlphabet) ∧
    ((BookingReferenceService.mk 123456789).booking_reference.1 =
      BookingReference.mk "75bcd16") ∧
    (∀ (s : BookingReferenceService) (i j : Nat),
      i < j → j < i + U64LIMIT → s.nthCall i ≠ s.nthCall j) := by
  refine ⟨fun s => ⟨rfl, rfl⟩, toHex_head_ne_zero, toHex_chars_in_alphabet,
    by decide, ?_⟩
  intro s i j hij hspan heq
  rw [nthCall_eq, nthCall_eq] at heq
  have h1 : toHex ((s.counter + i + 1) % U64LIMIT) =
      toHex ((s.counter + j + 1) % U64LIMIT) :=
    congrArg BookingReference.id heq
  have h2 := toHex_injective h1
  have hdvd : U64LIMIT ∣ (s.counter + j + 1) - (s.counter + i + 1) :=
    (Nat.modEq_iff_dvd' (by omega)).mp h2
  have hle := Nat.le_of_dvd (by omega) hdvd
  omega

/-- Claim C5 witness: the first two calls on an instance started at
123456789 return distinct booking references, the rendering "75bcd16" of the
first incremented counter starts with '7' (not '0'), and '5' is a lowercase
hexadecimal character. -/
theorem booking_reference_contract_witness :
    ('7' : Char) ≠ '0' ∧ ('5' : Char) ∈ hexAlphabet ∧
      (BookingReferenceService.mk 123456789).nthCall 0 ≠
        (BookingReferenceService.mk 123456789).nthCall 1 := by
  refine ⟨?_, ?_, ?_⟩
  · exact booking_reference_contract.2.1 123456790 (by decide) '7' (by decide)
  · exact booking_reference_contract.2.2.1 123456790 '5' (by decide)
  · exact booking_reference_contract.2.2.2.2
      (BookingReferenceService.mk 123456789) 0 1 (by decide) (by decide)

lemma containsTrain_eq_isSome (trains : TrainsData) (train_id : TrainId) :
    containsTrain trains train_id = (getTrain trains train_id).isSome := by
  induction trains with
  | nil => rfl
  | cons p rest ih =>
    by_cases h : p.1 == train_id <;>
      simp [containsTrain, getTrain, List.any_cons, List.find?_cons, h] <;>
      simpa [containsTrain, getTrain] using ih

/-- Claim C6: `TrainDataService::train` and `TrainDataService::train_mut`
return the stored train exactly when the id is a key of the train map, and
otherwise fail with `TrainDoesNotExist` carrying that exact id; the lookup
itself leaves the train collection unchanged. -/
theorem train_lookup_contract (s : TrainDataService) (train_id : TrainId) :
    (containsTrain s.trains train_id = true →
      ∃ t, getTrain s.trains train_id = some t ∧
        s.train train_id = Except.ok t ∧
        (s.train_mut train_id).1 = Except.ok t) ∧
    (containsTrain s.trains train_id = false →
      s.train train_id = Except.error (Error.TrainDoesNotExist train_id) ∧
        (s.train_mut train_id).1 =
          Except.error (Error.TrainDoesNotExist train_id)) ∧
    (s.train_mut train_id).2 = s := by
  refine ⟨?_, ?_, rfl⟩
  · intro h
    rw [containsTrain_eq_isSome] at h
    obtain ⟨t, ht⟩ := Option.isSome_iff_exists.mp h
    exact ⟨t, ht, by simp [TrainDataService.train, ht],
      by simp [TrainDataService.train_mut, TrainDataService.train, ht]⟩
  · intro h
    rw [containsTrain_eq_isSome] at h
    have hn : getTrain s.trains train_id = none := by
      cases hg : getTrain s.trains train_id with
      | none => rfl
      | some t => rw [hg] at h; simp at h
    constructor <;>
      simp [TrainDataService.train, TrainDataService.train_mut, hn]

/-- Claim C6 witness: looking up "local_1000" in the sample service returns
the stored sample train, and looking up "does_not_exist" fails with
`TrainDoesNotExist("does_not_exist")`. -/
theorem train_lookup_contract_witness :
    sampleService.train (TrainId.mk "local_1000") = Except.ok sampleTrain ∧
      sampleService.train (TrainId.mk "does_not_exist") =
        Except.error (Error.TrainDoesNotExist (TrainId.mk "does_not_exist")) := by
  constructor
  · obtain ⟨t, ht, h1, h2⟩ :=
      (train_lookup_contract sampleService (TrainId.mk "local_1000")).1 (by decide)
    have e : getTrain sampleService.trains (TrainId.mk "local_1000") =
        some sampleTrain := by decide
    rw [e] at ht
    injection ht with hts
    rw [← hts] at h1
    exact h1
  · exact ((train_lookup_contract sampleService
      (TrainId.mk "does_not_exist")).2.1 (by decide)).1
